import Mathlib

/-!
Shallow embedding of the eCommerce backend (src/main.py, src/schemas.py):
data model, validation, admin-session authorization, and the CRUD route
handlers for categories, products and delivery charges, together with
theorems checking the specification's claims against this embedding.

Conventions of the embedding:
* MongoDB collections become Lean lists of document structures; `_id` values
  are modelled as `Nat`, timestamps as `Nat` (the store state carries a
  monotone `clock` that stamps `created_at` / `updated_at`).
* JSON numbers are modelled as `Rat`; JSON strings as `String`.
* A payload field arriving over the wire is `JField α`: it is absent,
  explicitly `null`, or carries a value.  Pydantic parsing of the payload
  models is embedded in the `validate*` / `*.toOption` functions.
* Each route handler is a pure function `Store → input → Except ApiErr out × Store`;
  the `Store` returned on an error path is the unchanged input store,
  mirroring the fact that the Python handler raised before/without writing.
-/

namespace ECom

/-- A field of an inbound JSON object: absent from the object, explicitly
`null`, or present with a value. -/
inductive JField (α : Type) where
  | absent : JField α
  | null : JField α
  | given : α → JField α
deriving DecidableEq, Repr

/-- Pydantic parsing of an `Optional[T] = None` model field followed by
`model_dump(exclude_none=True)`: both an absent field and an explicit
`null` become `None` and are then dropped; only real values survive. -/
def JField.toOption {α : Type} : JField α → Option α
  | .absent => none
  | .null => none
  | .given v => some v

/-- Error taxonomy of the HTTP layer (the `HTTPException`s raised in
src/main.py, plus pydantic request-validation failures). -/
inductive ApiErr where
  | missingToken        -- 401 "Missing admin token"
  | invalidToken        -- 401 "Invalid token"
  | sessionExpired      -- 401 "Session expired"
  | invalidCredentials  -- 401 "Invalid credentials"
  | slugConflict        -- 400 "Slug already exists"
  | emptyUpdate         -- 400 "No fields to update"
  | categoryNotFound    -- 400 "Category does not exist"
  | notFound            -- 404 "... not found"
  | validationError (field : String)  -- 422 pydantic validation failure
deriving DecidableEq, Repr

/-! ### Validated entities (src/schemas.py) -/

/-- `Category` of src/schemas.py after pydantic validation. -/
structure Category where
  name : String
  slug : String
  description : Option String
  is_active : Bool
deriving DecidableEq, Repr

/-- `Product` of src/schemas.py after pydantic validation. -/
structure Product where
  title : String
  description : Option String
  price : Rat
  category_slug : String
  image_url : Option String
  in_stock : Bool
deriving DecidableEq, Repr

/-- `DeliveryRate` of src/schemas.py after pydantic validation. -/
structure DeliveryRate where
  location : String
  charge : Rat
deriving DecidableEq, Repr

/-- `DeliveryCharge` of src/schemas.py after pydantic validation. -/
structure DeliveryCharge where
  name : String
  notes : Option String
  rates : List DeliveryRate
deriving DecidableEq, Repr

/-! ### Raw (wire) payloads and pydantic validation -/

/-- Wire payload for `Category` / `CategoryCreate`. -/
structure CategoryRaw where
  name : JField String
  slug : JField String
  description : JField String
  is_active : JField Bool
deriving DecidableEq, Repr

/-- Pydantic validation of a `Category` payload (src/schemas.py lines 17-21):
`name` and `slug` are required `str` fields (absent or `null` is rejected;
note that the EMPTY string is a perfectly valid `str` value — there is no
`min_length` constraint in the model); `description` is `Optional[str]`
defaulting to `None`; `is_active` is `bool` defaulting to `True`
(an explicit `null` is rejected, since the field is not `Optional`). -/
def validateCategory (r : CategoryRaw) : Except ApiErr Category :=
  match r.name with
  | .absent => .error (.validationError "name")
  | .null => .error (.validationError "name")
  | .given n =>
    match r.slug with
    | .absent => .error (.validationError "slug")
    | .null => .error (.validationError "slug")
    | .given s =>
      match r.is_active with
      | .null => .error (.validationError "is_active")
      | .absent => .ok ⟨n, s, r.description.toOption, true⟩
      | .given b => .ok ⟨n, s, r.description.toOption, b⟩

/-- Well-formedness of a URL as checked by pydantic's `HttpUrl`, modelled
as: an `http://` or `https://` scheme followed by a nonempty remainder.
(The real `HttpUrl` grammar is richer; no claim in this development depends
on the exact boundary of the accepted language.) -/
def isHttpUrl (s : String) : Bool :=
  (s.startsWith "http://" && s.length > 7) || (s.startsWith "https://" && s.length > 8)

/-- Wire payload for `Product` / `ProductCreate`. -/
structure ProductRaw where
  title : JField String
  description : JField String
  price : JField Rat
  category_slug : JField String
  image_url : JField String
  in_stock : JField Bool
deriving DecidableEq, Repr

/-- Pydantic validation of a `Product` payload (src/schemas.py lines 23-29):
`title` and `category_slug` are required `str` (the empty string passes;
no `min_length` constraint exists); `price` is a required number with
`ge=0`; `image_url` is `Optional[HttpUrl]`; `in_stock` is `bool`
defaulting to `True`. -/
def validateProduct (r : ProductRaw) : Except ApiErr Product :=
  match r.title with
  | .absent => .error (.validationError "title")
  | .null => .error (.validationError "title")
  | .given t =>
    match r.price with
    | .absent => .error (.validationError "price")
    | .null => .error (.validationError "price")
    | .given p =>
      if p < 0 then .error (.validationError "price")
      else
        match r.category_slug with
        | .absent => .error (.validationError "category_slug")
        | .null => .error (.validationError "category_slug")
        | .given cs =>
          match r.image_url with
          | .given u =>
            if isHttpUrl u then
              match r.in_stock with
              | .null => .error (.validationError "in_stock")
              | .absent => .ok ⟨t, r.description.toOption, p, cs, some u, true⟩
              | .given b => .ok ⟨t, r.description.toOption, p, cs, some u, b⟩
            else .error (.validationError "image_url")
          | .absent =>
            match r.in_stock with
            | .null => .error (.validationError "in_stock")
            | .absent => .ok ⟨t, r.description.toOption, p, cs, none, true⟩
            | .given b => .ok ⟨t, r.description.toOption, p, cs, none, b⟩
          | .null =>
            match r.in_stock with
            | .null => .error (.validationError "in_stock")
            | .absent => .ok ⟨t, r.description.toOption, p, cs, none, true⟩
            | .given b => .ok ⟨t, r.description.toOption, p, cs, none, b⟩

/-- Wire payload for `DeliveryCharge` / `DeliveryUpsert`. -/
structure DeliveryRaw where
  name : JField String
  notes : JField String
  rates : JField (List DeliveryRate)
deriving DecidableEq, Repr

/-- Pydantic validation of a `DeliveryCharge` payload (src/schemas.py lines
31-38): `name` is `str` with default `"Standard Delivery"` (explicit `null`
rejected); `notes` is `Optional[str]`; `rates` defaults to `[]`, each rate
needing `charge ≥ 0`. -/
def validateDelivery (r : DeliveryRaw) : Except ApiErr DeliveryCharge :=
  match r.name with
  | .null => .error (.validationError "name")
  | .absent =>
    match r.rates with
    | .null => .error (.validationError "rates")
    | .absent => .ok ⟨"Standard Delivery", r.notes.toOption, []⟩
    | .given rs =>
      if rs.all (fun dr => 0 ≤ dr.charge) then .ok ⟨"Standard Delivery", r.notes.toOption, rs⟩
      else .error (.validationError "rates")
  | .given n =>
    match r.rates with
    | .null => .error (.validationError "rates")
    | .absent => .ok ⟨n, r.notes.toOption, []⟩
    | .given rs =>
      if rs.all (fun dr => 0 ≤ dr.charge) then .ok ⟨n, r.notes.toOption, rs⟩
      else .error (.validationError "rates")

/-! ### Stored documents and the store -/

/-- A document of the `category` collection. -/
structure CategoryDoc where
  _id : Nat
  name : String
  slug : String
  description : Option String
  is_active : Bool
  created_at : Nat
  updated_at : Option Nat
deriving DecidableEq, Repr

/-- A document of the `product` collection.  `in_stock` is `Option Bool`:
the document store is schema-less, so a document may lack the field
(the public listing's `$ne: false` filter distinguishes absent from
explicitly `false`). -/
structure ProductDoc where
  _id : Nat
  title : String
  description : Option String
  price : Rat
  category_slug : String
  image_url : Option String
  in_stock : Option Bool
  created_at : Nat
  updated_at : Option Nat
deriving DecidableEq, Repr

/-- A document of the `deliverycharge` collection. -/
structure DeliveryDoc where
  _id : Nat
  name : String
  notes : Option String
  rates : List DeliveryRate
  created_at : Nat
deriving DecidableEq, Repr

/-- A document of the `adminsession` collection, as inserted by
`admin_login` (src/main.py lines 85-89).  `expires_at` is optional because
`require_admin` tolerates documents lacking it. -/
structure SessionDoc where
  token : String
  created_at : Nat
  expires_at : Option Nat
deriving DecidableEq, Repr

/-- The whole document store plus the model's id generator and clock. -/
structure Store where
  categories : List CategoryDoc
  products : List ProductDoc
  deliverycharges : List DeliveryDoc
  adminsessions : List SessionDoc
  nextId : Nat
  clock : Nat
deriving DecidableEq, Repr

/-- The empty store. -/
def emptyStore : Store := ⟨[], [], [], [], 0, 0⟩

/-- Modelled from the spec: `database.py` is not under src/; its
`create_document(collection, doc)` is the Document Store Adapter's
`insert(kind, document) -> id`, which "persists a new document of the given
entity kind, stamping a creation timestamp, and returns its newly assigned
identifier".  Here for the `category` collection: assign the fresh id,
stamp `created_at` with the store clock, append, advance id and clock. -/
def mkCategoryDoc (st : Store) (c : Category) : CategoryDoc :=
  ⟨st.nextId, c.name, c.slug, c.description, c.is_active, st.clock, none⟩

def insertCategoryDoc (st : Store) (c : Category) : Nat × Store :=
  (st.nextId, { st with categories := st.categories ++ [mkCategoryDoc st c],
                        nextId := st.nextId + 1, clock := st.clock + 1 })

/-- Modelled from the spec: `create_document` for the `product` collection
(see `insertCategoryDoc`). -/
def mkProductDoc (st : Store) (p : Product) : ProductDoc :=
  ⟨st.nextId, p.title, p.description, p.price, p.category_slug,
   p.image_url, some p.in_stock, st.clock, none⟩

def insertProductDoc (st : Store) (p : Product) : Nat × Store :=
  (st.nextId, { st with products := st.products ++ [mkProductDoc st p],
                        nextId := st.nextId + 1, clock := st.clock + 1 })

/-- Modelled from the spec: `create_document` for the `deliverycharge`
collection (see `insertCategoryDoc`). -/
def mkDeliveryDoc (st : Store) (p : DeliveryCharge) : DeliveryDoc :=
  ⟨st.nextId, p.name, p.notes, p.rates, st.clock⟩

def insertDeliveryDoc (st : Store) (p : DeliveryCharge) : Nat × Store :=
  (st.nextId, { st with deliverycharges := st.deliverycharges ++ [mkDeliveryDoc st p],
                        nextId := st.nextId + 1, clock := st.clock + 1 })

/-! ### Serialization (serialize_doc, src/main.py lines 39-47) -/

/-- `datetime.isoformat()` modelled as an injective textual rendering of the
model timestamp. -/
def isoTime (n : Nat) : String := toString n

/-- Wire form of a category document after `serialize_doc`: `_id` becomes
the string field `id`, datetimes become ISO text. -/
structure SCategory where
  id : String
  name : String
  slug : String
  description : Option String
  is_active : Bool
  created_at : String
  updated_at : Option String
deriving DecidableEq, Repr

/-- `serialize_doc` on a category document. -/
def serializeCategory (d : CategoryDoc) : SCategory :=
  ⟨toString d._id, d.name, d.slug, d.description, d.is_active,
   isoTime d.created_at, d.updated_at.map isoTime⟩

/-- Wire form of a product document after `serialize_doc`. -/
structure SProduct where
  id : String
  title : String
  description : Option String
  price : Rat
  category_slug : String
  image_url : Option String
  in_stock : Option Bool
  created_at : String
  updated_at : Option String
deriving DecidableEq, Repr

/-- `serialize_doc` on a product document. -/
def serializeProduct (d : ProductDoc) : SProduct :=
  ⟨toString d._id, d.title, d.description, d.price, d.category_slug,
   d.image_url, d.in_stock, isoTime d.created_at, d.updated_at.map isoTime⟩

/-- Wire form of a delivery-charge document after `serialize_doc`. -/
structure SDelivery where
  id : String
  name : String
  notes : Option String
  rates : List DeliveryRate
  created_at : String
deriving DecidableEq, Repr

/-- `serialize_doc` on a delivery-charge document. -/
def serializeDelivery (d : DeliveryDoc) : SDelivery :=
  ⟨toString d._id, d.name, d.notes, d.rates, isoTime d.created_at⟩

/-! ### Admin auth (src/main.py lines 54-90) -/

/-- Whether a session is expired at `now`: the code checks
`session.get("expires_at") and session["expires_at"] < datetime.now(...)`,
so a session lacking `expires_at` never expires. -/
def sessionExpiredAt (s : SessionDoc) (now : Nat) : Bool :=
  match s.expires_at with
  | some e => decide (e < now)
  | none => false

/-- `require_admin` (src/main.py lines 67-75).  `x_admin_token` is the
optional request header; Python's `if not x_admin_token` is true for both
`None` and the empty string. -/
def require_admin (st : Store) (x_admin_token : Option String) (now : Nat) :
    Except ApiErr Unit :=
  match x_admin_token with
  | none => .error .missingToken
  | some t =>
    if t = "" then .error .missingToken
    else
      match st.adminsessions.find? (fun s => s.token == t) with
      | none => .error .invalidToken
      | some s =>
        if sessionExpiredAt s now then .error .sessionExpired else .ok ()

/-- FastAPI's `Depends(require_admin)` on an admin route: the guarded
operation `op` runs only when `require_admin` succeeds; on auth failure the
401 is returned and the store is untouched. -/
def runAdmin {α : Type} (st : Store) (tok : Option String) (now : Nat)
    (op : Store → Except ApiErr α × Store) : Except ApiErr α × Store :=
  match require_admin st tok now with
  | .error e => (.error e, st)
  | .ok _ => op st

/-- Environment-configured values used by the auth layer. -/
structure Config where
  admin_username : String
  admin_password : String
  session_ttl_hours : Nat
deriving DecidableEq, Repr

/-- `admin_login` (src/main.py lines 78-90).  The fresh `uuid4().hex` token
is passed in as a parameter (it is the one nondeterministic input); the TTL
is `SESSION_TTL_HOURS` hours, counted here in seconds. -/
def admin_login (cfg : Config) (st : Store) (username password : String)
    (token : String) (now : Nat) : Except ApiErr (String × Nat) × Store :=
  if username ≠ cfg.admin_username ∨ password ≠ cfg.admin_password then
    (.error .invalidCredentials, st)
  else
    let expires := now + cfg.session_ttl_hours * 3600
    (.ok (token, expires),
     { st with adminsessions := st.adminsessions ++ [⟨token, now, some expires⟩] })

/-! ### List helpers shared by the handlers -/

/-- Apply `f` to the first element satisfying `p` (MongoDB `update_one`). -/
def updateFirst {α : Type} (p : α → Bool) (f : α → α) : List α → List α
  | [] => []
  | x :: xs => if p x then f x :: xs else x :: updateFirst p f xs

/-- Remove the first element satisfying `p` (MongoDB `delete_one`). -/
def removeFirst {α : Type} (p : α → Bool) : List α → List α
  | [] => []
  | x :: xs => if p x then xs else x :: removeFirst p xs

/-! ### Category handlers (src/main.py lines 130-174) -/

/-- `create_category` (src/main.py lines 138-146): pydantic-validate, check
slug uniqueness with `find_one({"slug": payload.slug})`, insert via
`create_document`, re-read the new document and serialize it.  The
`Option` in the result mirrors `find_one` possibly returning nothing
(Python would then respond `null`). -/
def create_category (st : Store) (raw : CategoryRaw) :
    Except ApiErr (Option SCategory) × Store :=
  match validateCategory raw with
  | .error e => (.error e, st)
  | .ok p =>
    if st.categories.any (fun c => c.slug == p.slug) then (.error .slugConflict, st)
    else
      let (newId, st1) := insertCategoryDoc st p
      (.ok ((st1.categories.find? (fun c => c._id == newId)).map serializeCategory), st1)

/-- Wire payload for `CategoryUpdate` (src/main.py lines 148-152): every
field `Optional` with default `None`. -/
structure CategoryUpdate where
  name : JField String
  slug : JField String
  description : JField String
  is_active : JField Bool
deriving DecidableEq, Repr

/-- `payload.model_dump(exclude_none=True)` is empty. -/
def CategoryUpdate.isEmptyData (r : CategoryUpdate) : Bool :=
  r.name.toOption.isNone && r.slug.toOption.isNone &&
  r.description.toOption.isNone && r.is_active.toOption.isNone

/-- The `$set` merge of `update_one` plus `$currentDate: {updated_at: true}`
applied to a category document. -/
def mergeCategory (r : CategoryUpdate) (t : Nat) (c : CategoryDoc) : CategoryDoc :=
  { c with name := r.name.toOption.getD c.name,
           slug := r.slug.toOption.getD c.slug,
           description := r.description.toOption.or c.description,
           is_active := r.is_active.toOption.getD c.is_active,
           updated_at := some t }

/-- `update_category` (src/main.py lines 154-167): reject an empty
`exclude_none` dump; if a slug is given, reject it when another document
(`_id ≠ id`) already carries it; `update_one` on `_id = id` (404 when it
matches nothing); re-read and serialize. -/
def update_category (st : Store) (id : Nat) (raw : CategoryUpdate) :
    Except ApiErr (Option SCategory) × Store :=
  if raw.isEmptyData then (.error .emptyUpdate, st)
  else
    let slugConflict :=
      match raw.slug.toOption with
      | some s => st.categories.any (fun c => c.slug == s && c._id != id)
      | none => false
    if slugConflict then (.error .slugConflict, st)
    else if st.categories.any (fun c => c._id == id) then
      let cats := updateFirst (fun c => c._id == id) (mergeCategory raw st.clock) st.categories
      let st1 := { st with categories := cats, clock := st.clock + 1 }
      (.ok ((st1.categories.find? (fun c => c._id == id)).map serializeCategory), st1)
    else (.error .notFound, st)

/-- `delete_category` (src/main.py lines 169-174): `delete_one` on
`_id = id`; 404 when it deleted nothing. -/
def delete_category (st : Store) (id : Nat) : Except ApiErr Bool × Store :=
  if st.categories.any (fun c => c._id == id) then
    (.ok true, { st with categories := removeFirst (fun c => c._id == id) st.categories })
  else (.error .notFound, st)

/-! ### Product handlers (src/main.py lines 181-237) -/

/-- Insert a product document in descending `created_at` order before a
sorted tail (helper of `sortByCreatedDesc`). -/
def insertDesc (p : ProductDoc) : List ProductDoc → List ProductDoc
  | [] => [p]
  | q :: qs => if q.created_at < p.created_at then p :: q :: qs else q :: insertDesc p qs

/-- MongoDB `.sort("created_at", -1)`: the matched documents ordered by
`created_at` descending. -/
def sortByCreatedDesc (l : List ProductDoc) : List ProductDoc :=
  l.foldr insertDesc []

/-- The filter of `list_products` (src/main.py lines 181-187): the query is
`{"in_stock": {"$ne": False}}`, extended with an equality on
`category_slug` only when the query parameter is truthy — Python's
`if category_slug:` skips the filter for `None` AND for the empty string. -/
def productMatches (category_slug : Option String) (p : ProductDoc) : Bool :=
  p.in_stock != some false &&
  (match category_slug with
   | some s => if s = "" then true else p.category_slug == s
   | none => true)

/-- `list_products` (src/main.py lines 181-187). -/
def list_products (st : Store) (category_slug : Option String) : List SProduct :=
  (sortByCreatedDesc (st.products.filter (productMatches category_slug))).map serializeProduct

/-- `create_product` (src/main.py lines 199-207): pydantic-validate, check
the referenced category exists by slug, insert via `create_document`,
re-read and serialize. -/
def create_product (st : Store) (raw : ProductRaw) :
    Except ApiErr (Option SProduct) × Store :=
  match validateProduct raw with
  | .error e => (.error e, st)
  | .ok p =>
    if st.categories.any (fun c => c.slug == p.category_slug) then
      let (newId, st1) := insertProductDoc st p
      (.ok ((st1.products.find? (fun q => q._id == newId)).map serializeProduct), st1)
    else (.error .categoryNotFound, st)

/-- Wire payload for `ProductUpdate` (src/main.py lines 209-215): every
field `Optional` with default `None`.  Note that, unlike the create-time
`Product` model, `price` carries NO `ge=0` bound and `image_url` is a plain
`str`, not `HttpUrl`. -/
structure ProductUpdate where
  title : JField String
  description : JField String
  price : JField Rat
  category_slug : JField String
  image_url : JField String
  in_stock : JField Bool
deriving DecidableEq, Repr

/-- `payload.model_dump(exclude_none=True)` is empty. -/
def ProductUpdate.isEmptyData (r : ProductUpdate) : Bool :=
  r.title.toOption.isNone && r.description.toOption.isNone &&
  r.price.toOption.isNone && r.category_slug.toOption.isNone &&
  r.image_url.toOption.isNone && r.in_stock.toOption.isNone

/-- The `$set` merge of `update_one` plus `$currentDate: {updated_at: true}`
applied to a product document. -/
def mergeProduct (r : ProductUpdate) (t : Nat) (p : ProductDoc) : ProductDoc :=
  { p with title := r.title.toOption.getD p.title,
           description := r.description.toOption.or p.description,
           price := r.price.toOption.getD p.price,
           category_slug := r.category_slug.toOption.getD p.category_slug,
           image_url := r.image_url.toOption.or p.image_url,
           in_stock := (r.in_stock.toOption.map some).getD p.in_stock,
           updated_at := some t }

/-- `update_product` (src/main.py lines 217-230): reject an empty
`exclude_none` dump; when `category_slug` is given, require that category
to exist; `update_one` on `_id = id` (404 when it matches nothing);
re-read and serialize.  No price / URL validation happens here. -/
def update_product (st : Store) (id : Nat) (raw : ProductUpdate) :
    Except ApiErr (Option SProduct) × Store :=
  if raw.isEmptyData then (.error .emptyUpdate, st)
  else
    let catMissing :=
      match raw.category_slug.toOption with
      | some s => !(st.categories.any (fun c => c.slug == s))
      | none => false
    if catMissing then (.error .categoryNotFound, st)
    else if st.products.any (fun p => p._id == id) then
      let prods := updateFirst (fun p => p._id == id) (mergeProduct raw st.clock) st.products
      let st1 := { st with products := prods, clock := st.clock + 1 }
      (.ok ((st1.products.find? (fun p => p._id == id)).map serializeProduct), st1)
    else (.error .notFound, st)

/-- `delete_product` (src/main.py lines 232-237). -/
def delete_product (st : Store) (id : Nat) : Except ApiErr Bool × Store :=
  if st.products.any (fun p => p._id == id) then
    (.ok true, { st with products := removeFirst (fun p => p._id == id) st.products })
  else (.error .notFound, st)

/-! ### Delivery handlers (src/main.py lines 244-259) -/

/-- MongoDB `find_one(sort=[("created_at", -1)])` over the delivery
collection: a document with maximal `created_at` (earlier documents win
ties; all reachable states have pairwise distinct stamps). -/
def maxByCreated : List DeliveryDoc → Option DeliveryDoc
  | [] => none
  | d :: ds =>
    match maxByCreated ds with
    | none => some d
    | some m => if d.created_at < m.created_at then some m else some d

/-- `get_delivery` (src/main.py lines 244-249): the most recently created
document, serialized, or `null` when the collection is empty. -/
def get_delivery (st : Store) : Option SDelivery :=
  (maxByCreated st.deliverycharges).map serializeDelivery

/-- `set_delivery` (src/main.py lines 254-259): pydantic-validate, insert a
NEW document via `create_document` (never mutate), re-read and serialize. -/
def set_delivery (st : Store) (raw : DeliveryRaw) :
    Except ApiErr (Option SDelivery) × Store :=
  match validateDelivery raw with
  | .error e => (.error e, st)
  | .ok p =>
    let (newId, st1) := insertDeliveryDoc st p
    (.ok ((st1.deliverycharges.find? (fun d => d._id == newId)).map serializeDelivery), st1)

/-! ### Sequential runs of the category operations (for the slug invariant) -/

/-- One admin category operation. -/
inductive CatOp where
  | create (raw : CategoryRaw)
  | update (id : Nat) (raw : CategoryUpdate)
  | delete (id : Nat)

/-- Apply one category operation to the store, keeping only the store. -/
def applyCatOp (st : Store) : CatOp → Store
  | .create raw => (create_category st raw).2
  | .update id raw => (update_category st id raw).2
  | .delete id => (delete_category st id).2

/-- A sequential run of category operations from a starting store. -/
def runCatOps (st : Store) (ops : List CatOp) : Store :=
  ops.foldl applyCatOp st

/-! ### Sample documents and stores used by witnesses -/

/-- A sample stored category. -/
def catDoc0 : CategoryDoc := ⟨0, "Shoes", "shoes", none, true, 0, none⟩

/-- A sample stored product. -/
def prodDoc1 : ProductDoc := ⟨1, "Sneaker", none, 49, "shoes", none, some true, 1, none⟩

/-- A sample store holding `catDoc0` and `prodDoc1`. -/
def sampleStore : Store := ⟨[catDoc0], [prodDoc1], [], [], 2, 2⟩

/-! ### Helper lemmas about the list operations -/

theorem find?_updateFirst {α : Type} (p : α → Bool) (f : α → α)
    (hf : ∀ x, p (f x) = p x) :
    ∀ l : List α, (updateFirst p f l).find? p = (l.find? p).map f := by
  intro l
  induction l with
  | nil => rfl
  | cons x xs ih =>
    by_cases h : p x = true
    · simp [updateFirst, h, List.find?_cons_of_pos, hf]
    · have h' : p x = false := by simpa using h
      simp [updateFirst, h', List.find?_cons_of_neg, ih, hf]

theorem map_updateFirst {α β : Type} (g : α → β) (p : α → Bool) (f : α → α)
    (hg : ∀ x, g (f x) = g x) :
    ∀ l : List α, (updateFirst p f l).map g = l.map g := by
  intro l
  induction l with
  | nil => rfl
  | cons x xs ih =>
    by_cases h : p x = true <;> simp [updateFirst, h, hg, ih]

theorem mem_updateFirst {α : Type} {x : α} (p : α → Bool) (f : α → α) :
    ∀ l : List α, x ∈ updateFirst p f l → x ∈ l ∨ ∃ y, y ∈ l ∧ x = f y := by
  intro l
  induction l with
  | nil => simp [updateFirst]
  | cons a as ih =>
    cases h : p a with
    | true =>
      rw [updateFirst, if_pos h]
      intro hx
      rcases List.mem_cons.mp hx with rfl | hx
      · exact .inr ⟨a, by simp⟩
      · exact .inl (by simp [hx])
    | false =>
      rw [updateFirst, if_neg (by simp [h])]
      intro hx
      rcases List.mem_cons.mp hx with rfl | hx
      · exact .inl (by simp)
      · rcases ih hx with h1 | ⟨y, hy, rfl⟩
        · exact .inl (by simp [h1])
        · exact .inr ⟨y, by simp [hy]⟩

theorem removeFirst_sublist {α : Type} (p : α → Bool) :
    ∀ l : List α, List.Sublist (removeFirst p l) l := by
  intro l
  induction l with
  | nil => simp [removeFirst]
  | cons x xs ih =>
    cases h : p x with
    | true =>
      rw [removeFirst, if_pos h]
      exact List.sublist_cons_self x xs
    | false =>
      rw [removeFirst, if_neg (by simp [h])]
      exact ih.cons₂ x

theorem removeFirst_eq_filter {α : Type} (key : α → Nat) (i : Nat) :
    ∀ l : List α, (l.map key).Nodup →
      removeFirst (fun a => key a == i) l = l.filter (fun a => !(key a == i)) := by
  intro l
  induction l with
  | nil => simp [removeFirst]
  | cons x xs ih =>
    intro hnd
    rw [List.map_cons, List.nodup_cons] at hnd
    by_cases h : key x = i
    · have hx : (key x == i) = true := by simp [h]
      have : xs.filter (fun a => !(key a == i)) = xs := by
        apply List.filter_eq_self.mpr
        intro b hb
        have : key b ≠ key x := fun he => hnd.1 (he ▸ List.mem_map_of_mem key hb)
        simp [h ▸ this]
      simp [removeFirst, hx, this]
    · have hx : (key x == i) = false := by simp [h]
      simp [removeFirst, hx, ih hnd.2]

/-! ### Helper lemmas about the sorting of the product listing -/

theorem mem_insertDesc {a x : ProductDoc} :
    ∀ l : List ProductDoc, a ∈ insertDesc x l ↔ a = x ∨ a ∈ l := by
  intro l
  induction l with
  | nil => simp [insertDesc]
  | cons q qs ih =>
    by_cases h : q.created_at < x.created_at
    · simp [insertDesc, h, List.mem_cons]
    · simp only [insertDesc, h, if_neg, List.mem_cons, ih, not_false_iff]
      tauto

theorem perm_insertDesc (x : ProductDoc) :
    ∀ l : List ProductDoc, (insertDesc x l).Perm (x :: l) := by
  intro l
  induction l with
  | nil => simp [insertDesc]
  | cons q qs ih =>
    by_cases h : q.created_at < x.created_at
    · simp [insertDesc, h]
    · simp only [insertDesc, h, if_neg, not_false_iff]
      exact (ih.cons q).trans (List.Perm.swap x q qs)

theorem perm_sortByCreatedDesc :
    ∀ l : List ProductDoc, (sortByCreatedDesc l).Perm l := by
  intro l
  induction l with
  | nil => simp [sortByCreatedDesc]
  | cons x xs ih =>
    exact (perm_insertDesc x (sortByCreatedDesc xs)).trans (ih.cons x)

theorem pairwise_insertDesc (x : ProductDoc) :
    ∀ l : List ProductDoc,
      l.Pairwise (fun a b => b.created_at ≤ a.created_at) →
      (insertDesc x l).Pairwise (fun a b => b.created_at ≤ a.created_at) := by
  intro l
  induction l with
  | nil => simp [insertDesc]
  | cons q qs ih =>
    intro hp
    rw [List.pairwise_cons] at hp
    by_cases h : q.created_at < x.created_at
    · rw [insertDesc, if_pos h]
      refine List.Pairwise.cons ?_ (List.Pairwise.cons hp.1 hp.2)
      intro b hb
      rcases List.mem_cons.mp hb with rfl | hb
      · exact le_of_lt h
      · exact le_trans (hp.1 b hb) (le_of_lt h)
    · simp only [insertDesc, h, if_neg, not_false_iff]
      refine List.Pairwise.cons ?_ (ih hp.2)
      intro b hb
      rcases (mem_insertDesc _).mp hb with rfl | hb
      · exact not_lt.mp h
      · exact hp.1 b hb

theorem pairwise_sortByCreatedDesc (l : List ProductDoc) :
    (sortByCreatedDesc l).Pairwise (fun a b => b.created_at ≤ a.created_at) := by
  induction l with
  | nil => simp [sortByCreatedDesc]
  | cons x xs ih => exact pairwise_insertDesc x (sortByCreatedDesc xs) ih

/-! ### Helper lemmas about the latest-delivery lookup -/

theorem maxByCreated_eq_none :
    ∀ l : List DeliveryDoc, maxByCreated l = none ↔ l = [] := by
  intro l
  cases l with
  | nil => simp [maxByCreated]
  | cons d ds =>
    simp only [maxByCreated]
    cases maxByCreated ds with
    | none => simp
    | some m => by_cases h : d.created_at < m.created_at <;> simp [h]

theorem maxByCreated_mem :
    ∀ l : List DeliveryDoc, ∀ m, maxByCreated l = some m → m ∈ l := by
  intro l
  induction l with
  | nil => simp [maxByCreated]
  | cons d ds ih =>
    intro m
    simp only [maxByCreated]
    cases hds : maxByCreated ds with
    | none => intro h; simp at h; simp [h.symm]
    | some m0 =>
      by_cases h : d.created_at < m0.created_at
      · intro hm
        simp only [h, if_pos] at hm
        obtain rfl := Option.some.inj hm
        exact List.mem_cons_of_mem d (ih m0 hds)
      · intro hm
        simp only [h, if_neg, not_false_iff] at hm
        obtain rfl := Option.some.inj hm
        exact List.mem_cons_self d ds

theorem maxByCreated_ge :
    ∀ l : List DeliveryDoc, ∀ m, maxByCreated l = some m →
      ∀ d ∈ l, d.created_at ≤ m.created_at := by
  intro l
  induction l with
  | nil => simp [maxByCreated]
  | cons d ds ih =>
    intro m
    simp only [maxByCreated]
    cases hds : maxByCreated ds with
    | none =>
      intro h
      have hnil : ds = [] := (maxByCreated_eq_none ds).mp hds
      simp at h
      subst hnil
      simp [h.symm]
    | some m0 =>
      by_cases h : d.created_at < m0.created_at
      · intro hm
        simp only [h, if_pos] at hm
        obtain rfl := Option.some.inj hm
        intro b hb
        rcases List.mem_cons.mp hb with rfl | hb
        · exact le_of_lt h
        · exact ih m0 hds b hb
      · intro hm
        simp only [h, if_neg, not_false_iff] at hm
        obtain rfl := Option.some.inj hm
        intro b hb
        rcases List.mem_cons.mp hb with rfl | hb
        · exact le_refl _
        · exact le_trans (ih m0 hds b hb) (not_lt.mp h)

/-- Updating the (unique, by id-nodup) category of id `i` to carry slug `s`
keeps the slugs pairwise distinct, provided no OTHER category carries `s`. -/
theorem nodup_slug_updateFirst (i : Nat) (s : String) (f : CategoryDoc → CategoryDoc)
    (hfslug : ∀ c, (f c).slug = s) :
    ∀ l : List CategoryDoc,
      (l.map (fun c => c._id)).Nodup →
      (l.map (fun c => c.slug)).Nodup →
      (∀ c ∈ l, c.slug = s → c._id = i) →
      ((updateFirst (fun c => c._id == i) f l).map (fun c => c.slug)).Nodup := by
  intro l
  induction l with
  | nil => simp [updateFirst]
  | cons a as ih =>
    intro hid hslug hguard
    rw [List.map_cons, List.nodup_cons] at hid hslug
    cases h : (a._id == i) with
    | true =>
      rw [updateFirst, if_pos h, List.map_cons, List.nodup_cons]
      have hai : a._id = i := by simpa using h
      refine ⟨?_, hslug.2⟩
      rw [hfslug a]
      intro hmem
      rcases List.mem_map.mp hmem with ⟨c, hc, hcs⟩
      have : c._id = i := hguard c (List.mem_cons_of_mem a hc) hcs
      exact hid.1 (by
        rw [← hai] at this
        exact this ▸ List.mem_map_of_mem (fun c => c._id) hc)
    | false =>
      rw [updateFirst, if_neg (by simp [h]), List.map_cons, List.nodup_cons]
      constructor
      · intro hmem
        rcases List.mem_map.mp hmem with ⟨c, hc, hcs⟩
        rcases mem_updateFirst _ f as hc with hc' | ⟨y, _, rfl⟩
        · exact hslug.1 (hcs ▸ List.mem_map_of_mem (fun c => c.slug) hc')
        · have : a._id = i := hguard a (List.mem_cons_self a as) (by rw [← hcs, hfslug y])
          simp [this] at h
      · exact ih hid.2 hslug.2 fun c hc hcs => hguard c (List.mem_cons_of_mem a hc) hcs

/-- The three-part store invariant maintained by the category handlers:
ids below the id generator, ids pairwise distinct, slugs pairwise
distinct. -/
def CatsOK (st : Store) : Prop :=
  (∀ c ∈ st.categories, c._id < st.nextId) ∧
  (st.categories.map (fun c => c._id)).Nodup ∧
  (st.categories.map (fun c => c.slug)).Nodup

theorem catsOK_empty : CatsOK emptyStore := by
  refine ⟨?_, ?_, ?_⟩ <;> simp [emptyStore]

theorem catsOK_create (st : Store) (raw : CategoryRaw) (h : CatsOK st) :
    CatsOK (create_category st raw).2 := by
  obtain ⟨hlt, hid, hslug⟩ := h
  cases hv : validateCategory raw with
  | error e =>
    simp only [create_category, hv]
    exact ⟨hlt, hid, hslug⟩
  | ok p =>
    cases hc : st.categories.any (fun c => c.slug == p.slug) with
    | true =>
      simp only [create_category, hv, hc, if_true]
      exact ⟨hlt, hid, hslug⟩
    | false =>
      simp only [create_category, hv, hc, Bool.false_eq_true, if_false, insertCategoryDoc]
      refine ⟨?_, ?_, ?_⟩
      · intro c hc'
        rcases List.mem_append.mp hc' with hc' | hc'
        · exact Nat.lt_succ_of_lt (hlt c hc')
        · rcases List.mem_singleton.mp hc' with rfl
          exact Nat.lt_succ_self _
      · rw [List.map_append, List.map_singleton, List.nodup_middle]
        rw [List.nodup_cons]
        refine ⟨?_, by simpa using hid⟩
        intro hmem
        rcases List.mem_map.mp (by simpa using hmem) with ⟨c, hc', hcs⟩
        exact absurd (hcs ▸ hlt c hc') (lt_irrefl _)
      · rw [List.map_append, List.map_singleton, List.nodup_middle]
        rw [List.nodup_cons]
        refine ⟨?_, by simpa using hslug⟩
        intro hmem
        rcases List.mem_map.mp (by simpa using hmem) with ⟨c, hc', hcs⟩
        have : st.categories.any (fun c => c.slug == p.slug) = true :=
          List.any_eq_true.mpr ⟨c, hc', by simp [hcs, mkCategoryDoc]⟩
        simp [this] at hc

theorem catsOK_update (st : Store) (id : Nat) (raw : CategoryUpdate) (h : CatsOK st) :
    CatsOK (update_category st id raw).2 := by
  obtain ⟨hlt, hid, hslug⟩ := h
  have hmid : ∀ c, (mergeCategory raw st.clock c)._id = c._id := fun c => rfl
  cases he : raw.isEmptyData with
  | true =>
    simp only [update_category, he, if_true]
    exact ⟨hlt, hid, hslug⟩
  | false =>
    cases hs : raw.slug.toOption with
    | none =>
      cases hex : st.categories.any (fun c => c._id == id) with
      | false =>
        simp only [update_category, he, hs, hex, Bool.false_eq_true, if_false]
        exact ⟨hlt, hid, hslug⟩
      | true =>
        simp only [update_category, he, hs, hex, Bool.false_eq_true, if_false, if_true]
        have hmslug : ∀ c, (mergeCategory raw st.clock c).slug = c.slug := by
          intro c; simp [mergeCategory, hs]
        refine ⟨?_, ?_, ?_⟩
        · intro c hc
          rcases mem_updateFirst _ _ _ hc with hc' | ⟨y, hy, rfl⟩
          · exact hlt c hc'
          · exact hmid y ▸ hlt y hy
        · rw [map_updateFirst _ _ _ hmid]; exact hid
        · rw [map_updateFirst _ _ _ hmslug]; exact hslug
    | some s =>
      cases hcf : st.categories.any (fun c => c.slug == s && c._id != id) with
      | true =>
        simp only [update_category, he, hs, hcf, Bool.false_eq_true, if_false, if_true]
        exact ⟨hlt, hid, hslug⟩
      | false =>
        cases hex : st.categories.any (fun c => c._id == id) with
        | false =>
          simp only [update_category, he, hs, hcf, hex, Bool.false_eq_true, if_false]
          exact ⟨hlt, hid, hslug⟩
        | true =>
          simp only [update_category, he, hs, hcf, hex, Bool.false_eq_true, if_false, if_true]
          have hmslug : ∀ c, (mergeCategory raw st.clock c).slug = s := by
            intro c; simp [mergeCategory, hs]
          have hguard : ∀ c ∈ st.categories, c.slug = s → c._id = id := by
            intro c hc hcs
            by_contra hne
            have : st.categories.any (fun c => c.slug == s && c._id != id) = true :=
              List.any_eq_true.mpr ⟨c, hc, by simp [hcs, hne]⟩
            simp [this] at hcf
          refine ⟨?_, ?_, ?_⟩
          · intro c hc
            rcases mem_updateFirst _ _ _ hc with hc' | ⟨y, hy, rfl⟩
            · exact hlt c hc'
            · exact hmid y ▸ hlt y hy
          · rw [map_updateFirst _ _ _ hmid]; exact hid
          · exact nodup_slug_updateFirst id s _ hmslug st.categories hid hslug hguard

theorem catsOK_delete (st : Store) (id : Nat) (h : CatsOK st) :
    CatsOK (delete_category st id).2 := by
  obtain ⟨hlt, hid, hslug⟩ := h
  cases hex : st.categories.any (fun c => c._id == id) with
  | false =>
    simp only [delete_category, hex, Bool.false_eq_true, if_false]
    exact ⟨hlt, hid, hslug⟩
  | true =>
    simp only [delete_category, hex, if_true]
    have hsub := removeFirst_sublist (fun c : CategoryDoc => c._id == id) st.categories
    refine ⟨?_, ?_, ?_⟩
    · exact fun c hc => hlt c (hsub.mem hc)
    · exact (hsub.map (fun c => c._id)).nodup hid
    · exact (hsub.map (fun c => c.slug)).nodup hslug

theorem catsOK_run (ops : List CatOp) : CatsOK (runCatOps emptyStore ops) := by
  suffices h : ∀ st, CatsOK st → CatsOK (runCatOps st ops) from h emptyStore catsOK_empty
  induction ops with
  | nil => exact fun st h => h
  | cons op ops ih =>
    intro st h
    refine ih (applyCatOp st op) ?_
    cases op with
    | create raw => exact catsOK_create st raw h
    | update id raw => exact catsOK_update st id raw h
    | delete id => exact catsOK_delete st id h

/-! ### Success characterization of the update handlers -/

/-- On a successful product update, the returned document is the stored
target merged with the present payload fields. -/
theorem update_product_ok (st : Store) (id : Nat) (r : ProductUpdate)
    (d : SProduct) (st' : Store)
    (h : update_product st id r = (.ok (some d), st')) :
    ∃ old, st.products.find? (fun p => p._id == id) = some old ∧
      d = serializeProduct (mergeProduct r st.clock old) := by
  unfold update_product at h
  cases he : r.isEmptyData with
  | true => simp [he] at h
  | false =>
    simp only [he, Bool.false_eq_true, if_false] at h
    cases hm : (match r.category_slug.toOption with
                | some s => !(st.categories.any (fun c => c.slug == s))
                | none => false) with
    | true => rw [hm] at h; simp at h
    | false =>
      rw [hm] at h
      simp only [Bool.false_eq_true, if_false] at h
      cases hex : st.products.any (fun p => p._id == id) with
      | false => simp [hex] at h
      | true =>
        simp only [hex, if_true] at h
        have hfu := find?_updateFirst (fun p : ProductDoc => p._id == id)
          (mergeProduct r st.clock) (fun x => rfl) st.products
        rw [hfu] at h
        cases hf : st.products.find? (fun p => p._id == id) with
        | none =>
          rcases List.any_eq_true.mp hex with ⟨p, hp, hpp⟩
          have := List.find?_eq_none.mp hf p hp
          simp [hpp] at this
        | some old =>
          refine ⟨old, rfl, ?_⟩
          rw [hf] at h
          simp only [Option.map_some, Option.map_map, Function.comp] at h
          have h1 := ((Prod.mk.injEq _ _ _ _).mp h).1
          simp only [Option.map_some', Except.ok.injEq, Option.some.injEq] at h1
          exact h1.symm

/-- On a successful category update, the returned document is the stored
target merged with the present payload fields. -/
theorem update_category_ok (st : Store) (id : Nat) (r : CategoryUpdate)
    (d : SCategory) (st' : Store)
    (h : update_category st id r = (.ok (some d), st')) :
    ∃ old, st.categories.find? (fun c => c._id == id) = some old ∧
      d = serializeCategory (mergeCategory r st.clock old) := by
  unfold update_category at h
  cases he : r.isEmptyData with
  | true => simp [he] at h
  | false =>
    simp only [he, Bool.false_eq_true, if_false] at h
    cases hm : (match r.slug.toOption with
                | some s => st.categories.any (fun c => c.slug == s && c._id != id)
                | none => false) with
    | true => rw [hm] at h; simp at h
    | false =>
      rw [hm] at h
      simp only [Bool.false_eq_true, if_false] at h
      cases hex : st.categories.any (fun c => c._id == id) with
      | false => simp [hex] at h
      | true =>
        simp only [hex, if_true] at h
        have hfu := find?_updateFirst (fun c : CategoryDoc => c._id == id)
          (mergeCategory r st.clock) (fun x => rfl) st.categories
        rw [hfu] at h
        cases hf : st.categories.find? (fun c => c._id == id) with
        | none =>
          rcases List.any_eq_true.mp hex with ⟨c, hc, hcc⟩
          have := List.find?_eq_none.mp hf c hc
          simp [hcc] at this
        | some old =>
          refine ⟨old, rfl, ?_⟩
          rw [hf] at h
          simp only [Option.map_some, Option.map_map, Function.comp] at h
          have h1 := ((Prod.mk.injEq _ _ _ _).mp h).1
          simp only [Option.map_some', Except.ok.injEq, Option.some.injEq] at h1
          exact h1.symm

theorem maxByCreated_append_max (m : DeliveryDoc) :
    ∀ l : List DeliveryDoc, (∀ d ∈ l, d.created_at < m.created_at) →
      maxByCreated (l ++ [m]) = some m := by
  intro l
  induction l with
  | nil => simp [maxByCreated]
  | cons d ds ih =>
    intro h
    have hd : d.created_at < m.created_at := h d (List.mem_cons_self d ds)
    have : maxByCreated (ds ++ [m]) = some m :=
      ih fun b hb => h b (List.mem_cons_of_mem d hb)
    simp [maxByCreated, this, hd]

/-! ## Claim C8 -/

/-- C8: For every category or product update whose payload contains zero
recognized fields (its `exclude_none` dump is empty), the operation fails
with 400 EmptyUpdate and leaves the store unchanged, regardless of whether
the target identifier exists — the emptiness check precedes the existence
check. -/
theorem claim_C8_empty_update_rejected_first
    (st : Store) (cid pid : Nat) (cr : CategoryUpdate) (pr : ProductUpdate)
    (hc : cr.isEmptyData = true) (hp : pr.isEmptyData = true) :
    update_category st cid cr = (.error .emptyUpdate, st) ∧
    update_product st pid pr = (.error .emptyUpdate, st) := by
  constructor
  · simp [update_category, hc]
  · simp [update_product, hp]

/-- Witness for C8: both updates on `sampleStore`, aimed at the nonexistent
id 7, with payloads whose dumps are empty. -/
theorem claim_C8_witness :
    update_category sampleStore 7 ⟨.null, .absent, .null, .absent⟩ =
      (.error .emptyUpdate, sampleStore) ∧
    update_product sampleStore 7 ⟨.null, .null, .null, .null, .null, .null⟩ =
      (.error .emptyUpdate, sampleStore) :=
  claim_C8_empty_update_rejected_first sampleStore 7 7
    ⟨.null, .absent, .null, .absent⟩ ⟨.null, .null, .null, .null, .null, .null⟩
    (by decide) (by decide)

/-! ## Claim C9 -/

/-- C9: Delete of a category or product is idempotent on store state but
not on its reported outcome: for every id present in the store (ids being
pairwise distinct, as the store assigns them), the first delete removes
exactly that document and returns success, and a second delete of the same
id removes nothing and fails with 404 NotFound. -/
theorem claim_C9_delete_idempotent_state_not_outcome
    (st : Store) (cid pid : Nat)
    (hcn : (st.categories.map (fun c => c._id)).Nodup)
    (hpn : (st.products.map (fun p => p._id)).Nodup)
    (hc : st.categories.any (fun c => c._id == cid) = true)
    (hp : st.products.any (fun p => p._id == pid) = true) :
    (delete_category st cid =
        (.ok true, { st with categories := st.categories.filter (fun c => !(c._id == cid)) }) ∧
      delete_category (delete_category st cid).2 cid =
        (.error .notFound, (delete_category st cid).2)) ∧
    (delete_product st pid =
        (.ok true, { st with products := st.products.filter (fun p => !(p._id == pid)) }) ∧
      delete_product (delete_product st pid).2 pid =
        (.error .notFound, (delete_product st pid).2)) := by
  have hfc : (st.categories.filter (fun c => !(c._id == cid))).any
      (fun c => c._id == cid) = false := by
    rw [List.any_eq_false]
    intro x hx
    have h2 := (List.mem_filter.mp hx).2
    simp only [Bool.not_eq_true'] at h2
    simp [h2]
  have hfp : (st.products.filter (fun p => !(p._id == pid))).any
      (fun p => p._id == pid) = false := by
    rw [List.any_eq_false]
    intro x hx
    have h2 := (List.mem_filter.mp hx).2
    simp only [Bool.not_eq_true'] at h2
    simp [h2]
  have h1 : delete_category st cid =
      (.ok true, { st with categories := st.categories.filter (fun c => !(c._id == cid)) }) := by
    simp only [delete_category, hc, if_true]
    rw [removeFirst_eq_filter (fun c => c._id) cid st.categories hcn]
  have g1 : delete_product st pid =
      (.ok true, { st with products := st.products.filter (fun p => !(p._id == pid)) }) := by
    simp only [delete_product, hp, if_true]
    rw [removeFirst_eq_filter (fun p => p._id) pid st.products hpn]
  refine ⟨⟨h1, ?_⟩, ⟨g1, ?_⟩⟩
  · rw [h1]
    simp only [delete_category, hfc, Bool.false_eq_true, if_false]
  · rw [g1]
    simp only [delete_product, hfp, Bool.false_eq_true, if_false]

/-- Witness for C9: delete the sample category (id 0) and product (id 1)
twice each. -/
theorem claim_C9_witness :
    (delete_category sampleStore 0 =
        (.ok true, { sampleStore with
          categories := sampleStore.categories.filter (fun c => !(c._id == 0)) }) ∧
      delete_category (delete_category sampleStore 0).2 0 =
        (.error .notFound, (delete_category sampleStore 0).2)) ∧
    (delete_product sampleStore 1 =
        (.ok true, { sampleStore with
          products := sampleStore.products.filter (fun p => !(p._id == 1)) }) ∧
      delete_product (delete_product sampleStore 1).2 1 =
        (.error .notFound, (delete_product sampleStore 1).2)) :=
  claim_C9_delete_idempotent_state_not_outcome sampleStore 0 1
    (by decide) (by decide) (by decide) (by decide)

/-! ## Claim C10 -/

/-- C10: In category and product partial updates, a field explicitly
present with value `null` is indistinguishable from an absent field:
null-valued fields are dropped before the merge (updates on parse-equal
payloads coincide), no stored optional field can be reset to `null` by an
update (the merge only ever overwrites it with a value), and a payload
whose fields are all `null` fails as an empty update. -/
theorem claim_C10_null_indistinguishable_from_absent
    (st : Store) (cid pid : Nat)
    (r r' : CategoryUpdate)
    (hr1 : r.name.toOption = r'.name.toOption)
    (hr2 : r.slug.toOption = r'.slug.toOption)
    (hr3 : r.description.toOption = r'.description.toOption)
    (hr4 : r.is_active.toOption = r'.is_active.toOption)
    (q q' : ProductUpdate)
    (hq1 : q.title.toOption = q'.title.toOption)
    (hq2 : q.description.toOption = q'.description.toOption)
    (hq3 : q.price.toOption = q'.price.toOption)
    (hq4 : q.category_slug.toOption = q'.category_slug.toOption)
    (hq5 : q.image_url.toOption = q'.image_url.toOption)
    (hq6 : q.in_stock.toOption = q'.in_stock.toOption) :
    update_category st cid r = update_category st cid r' ∧
    update_product st pid q = update_product st pid q' ∧
    update_category st cid ⟨.null, .null, .null, .null⟩ = (.error .emptyUpdate, st) ∧
    update_product st pid ⟨.null, .null, .null, .null, .null, .null⟩ =
      (.error .emptyUpdate, st) ∧
    (∀ (c : CategoryDoc) (t : Nat),
      (mergeCategory r t c).description = none → c.description = none) ∧
    (∀ (p : ProductDoc) (t : Nat),
      ((mergeProduct q t p).description = none → p.description = none) ∧
      ((mergeProduct q t p).image_url = none → p.image_url = none)) := by
  have hmc : mergeCategory r st.clock = mergeCategory r' st.clock := by
    funext c
    simp [mergeCategory, hr1, hr2, hr3, hr4]
  have hmp : mergeProduct q st.clock = mergeProduct q' st.clock := by
    funext p
    simp [mergeProduct, hq1, hq2, hq3, hq4, hq5, hq6]
  refine ⟨?_, ?_, ?_, ?_, ?_, ?_⟩
  · simp only [update_category, CategoryUpdate.isEmptyData, hr1, hr2, hr3, hr4, hmc]
  · simp only [update_product, ProductUpdate.isEmptyData, hq1, hq2, hq3, hq4, hq5, hq6, hmp]
  · simp [update_category, CategoryUpdate.isEmptyData, JField.toOption]
  · simp [update_product, ProductUpdate.isEmptyData, JField.toOption]
  · intro c t h
    cases hd : r.description.toOption with
    | none => simpa [mergeCategory, hd, Option.or] using h
    | some v => simp [mergeCategory, hd, Option.or] at h
  · intro p t
    constructor
    · intro h
      cases hd : q.description.toOption with
      | none => simpa [mergeProduct, hd, Option.or] using h
      | some v => simp [mergeProduct, hd, Option.or] at h
    · intro h
      cases hd : q.image_url.toOption with
      | none => simpa [mergeProduct, hd, Option.or] using h
      | some v => simp [mergeProduct, hd, Option.or] at h

/-- Witness for C10: an all-`null` payload against an all-absent payload on
the sample store. -/
theorem claim_C10_witness :
    update_category sampleStore 0 ⟨.null, .null, .null, .null⟩ =
      update_category sampleStore 0 ⟨.absent, .absent, .absent, .absent⟩ ∧
    update_product sampleStore 1 ⟨.null, .null, .null, .null, .null, .null⟩ =
      update_product sampleStore 1 ⟨.absent, .absent, .absent, .absent, .absent, .absent⟩ ∧
    update_category sampleStore 0 ⟨.null, .null, .null, .null⟩ =
      (.error .emptyUpdate, sampleStore) ∧
    update_product sampleStore 1 ⟨.null, .null, .null, .null, .null, .null⟩ =
      (.error .emptyUpdate, sampleStore) ∧
    (∀ (c : CategoryDoc) (t : Nat),
      (mergeCategory ⟨.null, .null, .null, .null⟩ t c).description = none →
        c.description = none) ∧
    (∀ (p : ProductDoc) (t : Nat),
      ((mergeProduct ⟨.null, .null, .null, .null, .null, .null⟩ t p).description = none →
          p.description = none) ∧
      ((mergeProduct ⟨.null, .null, .null, .null, .null, .null⟩ t p).image_url = none →
          p.image_url = none)) :=
  claim_C10_null_indistinguishable_from_absent sampleStore 0 1
    ⟨.null, .null, .null, .null⟩ ⟨.absent, .absent, .absent, .absent⟩
    rfl rfl rfl rfl
    ⟨.null, .null, .null, .null, .null, .null⟩
    ⟨.absent, .absent, .absent, .absent, .absent, .absent⟩
    rfl rfl rfl rfl rfl rfl

/-! ## Claim C4 -/

/-- C4 counterexample: the claim says a create payload with empty `name`
(Category) or empty `title` (Product) fails with ValidationError and
inserts nothing.  In the code `name: str` / `title: str` carry no
`min_length` constraint, so the empty string passes validation, the create
succeeds and a document IS inserted. -/
theorem claim_C4_counterexample :
    create_category emptyStore ⟨.given "", .given "shoes", .absent, .absent⟩ =
      (.ok (some ⟨"0", "", "shoes", none, true, "0", none⟩),
       ⟨[⟨0, "", "shoes", none, true, 0, none⟩], [], [], [], 1, 1⟩) ∧
    (create_product sampleStore
        ⟨.given "", .absent, .given 10, .given "shoes", .absent, .absent⟩).1 =
      .ok (some ⟨"2", "", none, 10, "shoes", none, some true, "2", none⟩) ∧
    (create_product sampleStore
        ⟨.given "", .absent, .given 10, .given "shoes", .absent, .absent⟩).2.products =
      [prodDoc1, ⟨2, "", none, 10, "shoes", none, some true, 2, none⟩] := by
  refine ⟨?_, ?_, ?_⟩ <;> rfl

/-- C4 (amended): `name` and `title` are validated only for presence and
type: ANY string value — the empty string included — passes validation and
the create proceeds; validation fails with `ValidationError` on the field
only when it is absent (or explicitly null). -/
theorem claim_C4_amended_presence_only_validation
    (n s t cs : String) (p : Rat) (hp : 0 ≤ p) :
    validateCategory ⟨.given n, .given s, .absent, .absent⟩ = .ok ⟨n, s, none, true⟩ ∧
    validateProduct ⟨.given t, .absent, .given p, .given cs, .absent, .absent⟩ =
      .ok ⟨t, none, p, cs, none, true⟩ ∧
    validateCategory ⟨.absent, .given s, .absent, .absent⟩ =
      .error (.validationError "name") ∧
    validateProduct ⟨.absent, .absent, .given p, .given cs, .absent, .absent⟩ =
      .error (.validationError "title") := by
  refine ⟨rfl, ?_, rfl, rfl⟩
  simp [validateProduct, JField.toOption, not_lt.mpr hp]

/-- Witness for the amended C4: empty-string name and title at price 0. -/
theorem claim_C4_amended_witness :
    validateCategory ⟨.given "", .given "shoes", .absent, .absent⟩ =
      .ok ⟨"", "shoes", none, true⟩ ∧
    validateProduct ⟨.given "", .absent, .given 0, .given "shoes", .absent, .absent⟩ =
      .ok ⟨"", none, 0, "shoes", none, true⟩ ∧
    validateCategory ⟨.absent, .given "shoes", .absent, .absent⟩ =
      .error (.validationError "name") ∧
    validateProduct ⟨.absent, .absent, .given 0, .given "shoes", .absent, .absent⟩ =
      .error (.validationError "title") :=
  claim_C4_amended_presence_only_validation "" "shoes" "" "shoes" 0 (by decide)

/-! ## Claim C3 -/

/-- C3 counterexample: the claim says a present `price` must satisfy
`price ≥ 0` and a present `image_url` must be a well-formed URL, else the
partial update fails with ValidationError and the stored product is
unchanged.  In the code `ProductUpdate` re-declares both fields without
constraints, so an update carrying `price = -5` and a non-URL string
succeeds and stores both verbatim. -/
theorem claim_C3_counterexample :
    update_product sampleStore 1
        ⟨.absent, .absent, .given (-5), .absent, .given "not-a-url", .absent⟩ =
      (.ok (some ⟨"1", "Sneaker", none, -5, "shoes", some "not-a-url", some true,
                  "1", some "2"⟩),
       ⟨[catDoc0],
        [⟨1, "Sneaker", none, -5, "shoes", some "not-a-url", some true, 1, some 2⟩],
        [], [], 2, 3⟩) := by
  rfl

/-- C3 (amended): partial product updates do not re-validate present
fields against the create-time constraints: `update_product` can never
fail with a `ValidationError`, and on success a present `price` (of any
sign) and a present `image_url` (any string) are stored verbatim in the
returned document. -/
theorem claim_C3_amended_update_skips_validation
    (st : Store) (id : Nat) (r : ProductUpdate) (d : SProduct) (st' : Store)
    (pr : Rat) (u : String)
    (hrun : update_product st id r = (.ok (some d), st'))
    (hpr : r.price.toOption = some pr)
    (hu : r.image_url.toOption = some u) :
    (∀ (st2 : Store) (id2 : Nat) (r2 : ProductUpdate) (f : String),
      (update_product st2 id2 r2).1 ≠ .error (.validationError f)) ∧
    d.price = pr ∧ d.image_url = some u := by
  constructor
  · intro st2 id2 r2 f
    cases he : r2.isEmptyData with
    | true => simp [update_product, he]
    | false =>
      cases hm : (match r2.category_slug.toOption with
                  | some s => !(st2.categories.any (fun c => c.slug == s))
                  | none => false) with
      | true => simp [update_product, he, hm]
      | false =>
        cases hex : st2.products.any (fun p => p._id == id2) with
        | true => simp [update_product, he, hm, hex]
        | false => simp [update_product, he, hm, hex]
  · obtain ⟨old, hold, rfl⟩ := update_product_ok st id r d st' hrun
    constructor
    · simp [serializeProduct, mergeProduct, hpr]
    · simp [serializeProduct, mergeProduct, hu, Option.or]

/-- Witness for the amended C3: the negative-price, garbage-URL update on
the sample store. -/
theorem claim_C3_amended_witness :
    (∀ (st2 : Store) (id2 : Nat) (r2 : ProductUpdate) (f : String),
      (update_product st2 id2 r2).1 ≠ .error (.validationError f)) ∧
    (⟨"1", "Sneaker", none, -5, "shoes", some "not-a-url", some true,
      "1", some "2"⟩ : SProduct).price = -5 ∧
    (⟨"1", "Sneaker", none, -5, "shoes", some "not-a-url", some true,
      "1", some "2"⟩ : SProduct).image_url = some "not-a-url" :=
  claim_C3_amended_update_skips_validation sampleStore 1
    ⟨.absent, .absent, .given (-5), .absent, .given "not-a-url", .absent⟩
    ⟨"1", "Sneaker", none, -5, "shoes", some "not-a-url", some true, "1", some "2"⟩
    ⟨[catDoc0],
     [⟨1, "Sneaker", none, -5, "shoes", some "not-a-url", some true, 1, some 2⟩],
     [], [], 2, 3⟩
    (-5) "not-a-url" rfl rfl rfl

/-! ## Claim C5 -/

/-- C5: For every valid product payload, create fails with 400
CategoryNotFound and inserts nothing exactly when no stored Category has
slug equal to the payload's `category_slug`; when such a Category exists,
create inserts the product document and returns it serialized.  The
freshness hypothesis is the store adapter's guarantee that assigned ids
are new. -/
theorem claim_C5_create_product_requires_category
    (st : Store) (raw : ProductRaw) (p : Product)
    (hv : validateProduct raw = .ok p)
    (hfresh : ∀ q ∈ st.products, q._id < st.nextId) :
    (create_product st raw = (.error .categoryNotFound, st) ↔
      ∀ c ∈ st.categories, c.slug ≠ p.category_slug) ∧
    ((∃ c ∈ st.categories, c.slug = p.category_slug) →
      create_product st raw =
        (.ok (some (serializeProduct (mkProductDoc st p))), (insertProductDoc st p).2)) := by
  cases hex : st.categories.any (fun c => c.slug == p.category_slug) with
  | false =>
    have hall : ∀ c ∈ st.categories, c.slug ≠ p.category_slug := by
      intro c hc
      have := List.any_eq_false.mp hex c hc
      simpa using this
    constructor
    · simp only [create_product, hv, hex, Bool.false_eq_true, if_false]
      exact ⟨fun _ => hall, fun _ => trivial⟩
    · rintro ⟨c, hc, hcs⟩
      exact absurd hcs (hall c hc)
  | true =>
    have hfind : (st.products ++ [mkProductDoc st p]).find?
        (fun q => q._id == st.nextId) = some (mkProductDoc st p) := by
      rw [List.find?_append]
      have hnone : st.products.find? (fun q => q._id == st.nextId) = none := by
        rw [List.find?_eq_none]
        intro q hq
        have := hfresh q hq
        simp
        omega
      rw [hnone]
      simp [mkProductDoc]
    constructor
    · simp only [create_product, hv, hex, if_true, insertProductDoc, hfind]
      constructor
      · intro h
        exact absurd ((Prod.mk.injEq _ _ _ _).mp h).1 (by simp)
      · intro hall
        rcases List.any_eq_true.mp hex with ⟨c, hc, hcs⟩
        exact absurd (by simpa using hcs) (hall c hc)
    · intro _
      simp only [create_product, hv, hex, if_true, insertProductDoc, hfind,
        Option.map_some']

/-- Witness for C5: creating the sample sneaker in `sampleStore` (category
`shoes` exists) and the characterization of the failing case. -/
theorem claim_C5_witness :
    (create_product sampleStore
        ⟨.given "Boot", .absent, .given 60, .given "shoes", .absent, .absent⟩ =
        (.error .categoryNotFound, sampleStore) ↔
      ∀ c ∈ sampleStore.categories,
        c.slug ≠ (⟨"Boot", none, 60, "shoes", none, true⟩ : Product).category_slug) ∧
    ((∃ c ∈ sampleStore.categories,
        c.slug = (⟨"Boot", none, 60, "shoes", none, true⟩ : Product).category_slug) →
      create_product sampleStore
          ⟨.given "Boot", .absent, .given 60, .given "shoes", .absent, .absent⟩ =
        (.ok (some (serializeProduct
            (mkProductDoc sampleStore ⟨"Boot", none, 60, "shoes", none, true⟩))),
         (insertProductDoc sampleStore ⟨"Boot", none, 60, "shoes", none, true⟩).2)) :=
  claim_C5_create_product_requires_category sampleStore
    ⟨.given "Boot", .absent, .given 60, .given "shoes", .absent, .absent⟩
    ⟨"Boot", none, 60, "shoes", none, true⟩
    (by rfl) (by decide)

/-! ## Claim C7 -/

/-- C7: Setting delivery charges always inserts a new DeliveryCharge
document (appending to the collection, never mutating an existing
document), and the public delivery read returns the document with the
greatest creation timestamp (or null exactly when the collection is
empty); after two successive set operations the read returns the second
document, which differs from the first.  The clock hypothesis states that
all stamped timestamps of the store's documents precede its clock, true of
every reachable store. -/
theorem claim_C7_delivery_append_only_latest_wins
    (st : Store) (r1 r2 : DeliveryRaw) (p1 p2 : DeliveryCharge)
    (h1 : validateDelivery r1 = .ok p1) (h2 : validateDelivery r2 = .ok p2)
    (hcl : ∀ d ∈ st.deliverycharges, d.created_at < st.clock) :
    (set_delivery st r1).2.deliverycharges =
      st.deliverycharges ++ [mkDeliveryDoc st p1] ∧
    (get_delivery st = none ↔ st.deliverycharges = []) ∧
    (∀ m, maxByCreated st.deliverycharges = some m →
      m ∈ st.deliverycharges ∧ ∀ d ∈ st.deliverycharges, d.created_at ≤ m.created_at) ∧
    get_delivery (set_delivery (set_delivery st r1).2 r2).2 =
      some (serializeDelivery (mkDeliveryDoc (set_delivery st r1).2 p2)) ∧
    mkDeliveryDoc (set_delivery st r1).2 p2 ≠ mkDeliveryDoc st p1 := by
  have hA : (set_delivery st r1).2 =
      { st with deliverycharges := st.deliverycharges ++ [mkDeliveryDoc st p1],
                nextId := st.nextId + 1, clock := st.clock + 1 } := by
    simp only [set_delivery, h1, insertDeliveryDoc]
  have hB : (set_delivery (set_delivery st r1).2 r2).2 =
      { st with deliverycharges := (st.deliverycharges ++ [mkDeliveryDoc st p1]) ++
                  [mkDeliveryDoc (set_delivery st r1).2 p2],
                nextId := st.nextId + 1 + 1, clock := st.clock + 1 + 1 } := by
    rw [hA]
    simp only [set_delivery, h2, insertDeliveryDoc]
  refine ⟨by rw [hA], ?_, ?_, ?_, ?_⟩
  · constructor
    · intro h
      cases hmx : maxByCreated st.deliverycharges with
      | none => exact (maxByCreated_eq_none _).mp hmx
      | some m => rw [get_delivery, hmx] at h; simp at h
    · intro h
      simp [get_delivery, h, maxByCreated]
  · exact fun m hm => ⟨maxByCreated_mem _ m hm, maxByCreated_ge _ m hm⟩
  · simp only [get_delivery]
    rw [hB]
    have hmax : maxByCreated ((st.deliverycharges ++ [mkDeliveryDoc st p1]) ++
        [mkDeliveryDoc (set_delivery st r1).2 p2]) =
        some (mkDeliveryDoc (set_delivery st r1).2 p2) := by
      apply maxByCreated_append_max
      intro d hd
      have hcA : (mkDeliveryDoc (set_delivery st r1).2 p2).created_at = st.clock + 1 := by
        rw [hA]
        rfl
      rw [hcA]
      rcases List.mem_append.mp hd with hd' | hd'
      · exact Nat.lt_succ_of_lt (hcl d hd')
      · rcases List.mem_singleton.mp hd' with rfl
        exact Nat.lt_succ_self _
    rw [hmax, Option.map_some']
  · intro heq
    have := congrArg (fun d => d.created_at) heq
    rw [hA] at this
    simp [mkDeliveryDoc] at this

/-- Witness for C7: two successive delivery charts on the empty store. -/
theorem claim_C7_witness :
    (set_delivery emptyStore ⟨.given "A", .absent, .absent⟩).2.deliverycharges =
      emptyStore.deliverycharges ++ [mkDeliveryDoc emptyStore ⟨"A", none, []⟩] ∧
    (get_delivery emptyStore = none ↔ emptyStore.deliverycharges = []) ∧
    (∀ m, maxByCreated emptyStore.deliverycharges = some m →
      m ∈ emptyStore.deliverycharges ∧
      ∀ d ∈ emptyStore.deliverycharges, d.created_at ≤ m.created_at) ∧
    get_delivery (set_delivery (set_delivery emptyStore ⟨.given "A", .absent, .absent⟩).2
        ⟨.given "B", .absent, .absent⟩).2 =
      some (serializeDelivery (mkDeliveryDoc
        (set_delivery emptyStore ⟨.given "A", .absent, .absent⟩).2 ⟨"B", none, []⟩)) ∧
    mkDeliveryDoc (set_delivery emptyStore ⟨.given "A", .absent, .absent⟩).2
        ⟨"B", none, []⟩ ≠
      mkDeliveryDoc emptyStore ⟨"A", none, []⟩ :=
  claim_C7_delivery_append_only_latest_wins emptyStore
    ⟨.given "A", .absent, .absent⟩ ⟨.given "B", .absent, .absent⟩
    ⟨"A", none, []⟩ ⟨"B", none, []⟩ rfl rfl (by simp [emptyStore])

/-! ## Claim C6 -/

/-- The Boolean query of `list_products`, characterized as a proposition.
Note the `s ≠ ""` guard: Python's `if category_slug:` drops the filter for
an empty query-parameter value. -/
theorem productMatches_iff (q : Option String) (p : ProductDoc) :
    productMatches q p = true ↔
      p.in_stock ≠ some false ∧ ∀ s, q = some s → s ≠ "" → p.category_slug = s := by
  unfold productMatches
  cases q with
  | none => simp
  | some s =>
    by_cases hs : s = ""
    · subst hs
      simp
    · simp only [hs, if_neg, Bool.and_eq_true, bne_iff_ne, ne_eq, beq_iff_eq,
        Option.some.injEq, not_false_iff]
      constructor
      · rintro ⟨h1, h2⟩
        exact ⟨h1, fun s' hs' _ => hs' ▸ h2⟩
      · rintro ⟨h1, h2⟩
        exact ⟨h1, h2 s rfl hs⟩

/-- C6 counterexample: the claim says the public list is restricted to
products matching the `category_slug` query parameter whenever one is
given.  With the parameter given as the empty string, the code applies no
filter at all: the sample product (slug `shoes` ≠ `""`) is still
returned. -/
theorem claim_C6_counterexample :
    list_products sampleStore (some "") = [serializeProduct prodDoc1] ∧
    prodDoc1.category_slug = "shoes" ∧ ("shoes" : String) ≠ "" :=
  ⟨rfl, rfl, by decide⟩

/-- C6 (amended): the public product list returns exactly the products
whose `in_stock` field is not explicitly false (absent or true included),
further restricted to those matching the `category_slug` query parameter
when a NON-EMPTY one is given (an absent or empty parameter applies no
category filter), ordered by creation timestamp descending. -/
theorem claim_C6_amended_public_listing (st : Store) (q : Option String) :
    ∃ docs : List ProductDoc,
      list_products st q = docs.map serializeProduct ∧
      docs.Perm (st.products.filter (productMatches q)) ∧
      docs.Pairwise (fun a b => b.created_at ≤ a.created_at) ∧
      (∀ p : ProductDoc, p ∈ docs ↔ p ∈ st.products ∧ p.in_stock ≠ some false ∧
        ∀ s, q = some s → s ≠ "" → p.category_slug = s) := by
  refine ⟨sortByCreatedDesc (st.products.filter (productMatches q)), rfl,
    perm_sortByCreatedDesc _, pairwise_sortByCreatedDesc _, ?_⟩
  intro p
  rw [(perm_sortByCreatedDesc _).mem_iff, List.mem_filter, productMatches_iff]

/-- Witness for the amended C6 at a concrete store and non-empty filter. -/
theorem claim_C6_amended_witness :
    ∃ docs : List ProductDoc,
      list_products sampleStore (some "shoes") = docs.map serializeProduct ∧
      docs.Perm (sampleStore.products.filter (productMatches (some "shoes"))) ∧
      docs.Pairwise (fun a b => b.created_at ≤ a.created_at) ∧
      (∀ p : ProductDoc, p ∈ docs ↔ p ∈ sampleStore.products ∧
        p.in_stock ≠ some false ∧
        ∀ s, (some "shoes" : Option String) = some s → s ≠ "" → p.category_slug = s) :=
  claim_C6_amended_public_listing sampleStore (some "shoes")

/-! ## Claim C1 -/

/-- C1 counterexample: the claim's error taxonomy says a PRESENT header
that matches no stored session fails with InvalidToken.  But Python's
`if not x_admin_token:` treats a present-but-empty header value as
missing, so a request carrying the header with value `""` (which matches
no session — login tokens are 32-char uuid hexes) fails with MissingToken
instead of InvalidToken. -/
theorem claim_C1_counterexample :
    require_admin emptyStore (some "") 0 = .error .missingToken ∧
    (some "" : Option String).isSome = true ∧
    ApiErr.missingToken ≠ ApiErr.invalidToken :=
  ⟨rfl, rfl, by decide⟩

/-- C1 (amended): for every admin-gated request, authorization succeeds
exactly when the admin-token header carries a NON-EMPTY token, a stored
session with that token exists, and that session's `expires_at` (when
set) has not passed; otherwise the request fails with 401 carrying
MissingToken when the header is absent OR EMPTY, InvalidToken when a
non-empty token matches no session, and SessionExpired when the matched
session's `expires_at` has passed — and the guarded operation does not
run, leaving the store untouched.  Hypotheses: session tokens are
pairwise distinct and every session carries an `expires_at`, as holds for
sessions created by `admin_login`. -/
theorem claim_C1_amended_admin_gate
    (st : Store) (tok : Option String) (now : Nat)
    (hnd : (st.adminsessions.map (fun s => s.token)).Nodup)
    (hexp : ∀ s ∈ st.adminsessions, s.expires_at.isSome) :
    (require_admin st tok now = .ok () ↔
      ∃ t s, tok = some t ∧ t ≠ "" ∧ s ∈ st.adminsessions ∧ s.token = t ∧
        ∀ e, s.expires_at = some e → now ≤ e) ∧
    (require_admin st tok now = .error .missingToken ↔
      (tok = none ∨ tok = some "")) ∧
    (∀ t, tok = some t → t ≠ "" →
      (require_admin st tok now = .error .invalidToken ↔
        ∀ s ∈ st.adminsessions, s.token ≠ t)) ∧
    (∀ t, tok = some t → t ≠ "" →
      (require_admin st tok now = .error .sessionExpired ↔
        ∃ s e, s ∈ st.adminsessions ∧ s.token = t ∧ s.expires_at = some e ∧
          e < now)) ∧
    (∀ (α : Type) (op : Store → Except ApiErr α × Store) (e : ApiErr),
      require_admin st tok now = .error e →
        runAdmin st tok now op = (.error e, st)) := by
  have hrun : ∀ (α : Type) (op : Store → Except ApiErr α × Store) (e : ApiErr),
      require_admin st tok now = .error e →
        runAdmin st tok now op = (.error e, st) := by
    intro α op e he
    unfold runAdmin
    rw [he]
  cases tok with
  | none =>
    refine ⟨?_, ?_, ?_, ?_, hrun⟩
    · simp [require_admin]
    · simp [require_admin]
    · intro t ht
      simp at ht
    · intro t ht
      simp at ht
  | some t =>
    by_cases ht : t = ""
    · subst ht
      refine ⟨?_, ?_, ?_, ?_, hrun⟩
      · simp only [require_admin, if_pos rfl]
        constructor
        · intro h
          simp at h
        · rintro ⟨t', s, htt, hne, -, -, -⟩
          exact absurd (Option.some.inj htt).symm hne
      · simp [require_admin]
      · intro t' ht' hne
        exact absurd (Option.some.inj ht').symm hne
      · intro t' ht' hne
        exact absurd (Option.some.inj ht').symm hne
    · cases hf : st.adminsessions.find? (fun s => s.token == t) with
      | none =>
        have hno : ∀ s ∈ st.adminsessions, s.token ≠ t := by
          intro s hs
          have := List.find?_eq_none.mp hf s hs
          simpa using this
        have hreq : require_admin st (some t) now = .error .invalidToken := by
          simp only [require_admin, if_neg ht, hf]
        refine ⟨?_, ?_, ?_, ?_, hrun⟩
        · rw [hreq]
          constructor
          · intro h
            simp at h
          · rintro ⟨t', s, htt, -, hs, hst, -⟩
            obtain rfl := Option.some.inj htt
            exact absurd hst (hno s hs)
        · rw [hreq]
          constructor
          · intro h
            simp at h
          · rintro (h | h)
            · simp at h
            · exact absurd (Option.some.inj h) ht
        · intro t' ht' hne
          obtain rfl := Option.some.inj ht'
          rw [hreq]
          simp only [true_iff]
          exact hno
        · intro t' ht' hne
          obtain rfl := Option.some.inj ht'
          rw [hreq]
          constructor
          · intro h
            simp at h
          · rintro ⟨s, e, hs, hst, -, -⟩
            exact absurd hst (hno s hs)
      | some s0 =>
        have hs0mem : s0 ∈ st.adminsessions := List.mem_of_find?_eq_some hf
        have hs0tok : s0.token = t := by
          have := List.find?_some hf
          simpa using this
        have huniq : ∀ s' ∈ st.adminsessions, s'.token = t → s' = s0 := by
          intro s' hs' ht'
          exact List.inj_on_of_nodup_map hnd hs' hs0mem (ht'.trans hs0tok.symm)
        obtain ⟨e0, he0⟩ := Option.isSome_iff_exists.mp (hexp s0 hs0mem)
        cases hx : sessionExpiredAt s0 now with
        | true =>
          have he0lt : e0 < now := by
            unfold sessionExpiredAt at hx
            rw [he0] at hx
            simpa using hx
          have hreq : require_admin st (some t) now = .error .sessionExpired := by
            simp only [require_admin, if_neg ht, hf, hx, if_pos]
          refine ⟨?_, ?_, ?_, ?_, hrun⟩
          · rw [hreq]
            constructor
            · intro h
              simp at h
            · rintro ⟨t', s', htt, -, hs', hst', hval⟩
              obtain rfl := Option.some.inj htt
              obtain rfl := huniq s' hs' hst'
              exact absurd (hval e0 he0) (not_le.mpr he0lt)
          · rw [hreq]
            constructor
            · intro h
              simp at h
            · rintro (h | h)
              · simp at h
              · exact absurd (Option.some.inj h) ht
          · intro t' ht' hne
            obtain rfl := Option.some.inj ht'
            rw [hreq]
            constructor
            · intro h
              simp at h
            · intro hno
              exact absurd hs0tok (hno s0 hs0mem)
          · intro t' ht' hne
            obtain rfl := Option.some.inj ht'
            rw [hreq]
            simp only [true_iff]
            exact ⟨s0, e0, hs0mem, hs0tok, he0, he0lt⟩
        | false =>
          have he0ge : now ≤ e0 := by
            unfold sessionExpiredAt at hx
            rw [he0] at hx
            simpa using hx
          have hreq : require_admin st (some t) now = .ok () := by
            simp only [require_admin, if_neg ht, hf, hx, Bool.false_eq_true, if_false]
          refine ⟨?_, ?_, ?_, ?_, hrun⟩
          · rw [hreq]
            simp only [true_iff]
            refine ⟨t, s0, rfl, ht, hs0mem, hs0tok, ?_⟩
            intro e he
            rw [he0] at he
            obtain rfl := Option.some.inj he
            exact he0ge
          · rw [hreq]
            constructor
            · intro h
              simp at h
            · rintro (h | h)
              · simp at h
              · exact absurd (Option.some.inj h) ht
          · intro t' ht' hne
            obtain rfl := Option.some.inj ht'
            rw [hreq]
            constructor
            · intro h
              simp at h
            · intro hno
              exact absurd hs0tok (hno s0 hs0mem)
          · intro t' ht' hne
            obtain rfl := Option.some.inj ht'
            rw [hreq]
            constructor
            · intro h
              simp at h
            · rintro ⟨s', e', hs', hst', he', hlt⟩
              obtain rfl := huniq s' hs' hst'
              rw [he0] at he'
              obtain rfl := Option.some.inj he'
              exact absurd hlt (not_lt.mpr he0ge)

/-- Witness for the amended C1: one unexpired session, queried with its
own token before expiry. -/
theorem claim_C1_amended_witness :
    (require_admin ⟨[], [], [], [⟨"tok", 0, some 10⟩], 0, 0⟩ (some "tok") 5 = .ok () ↔
      ∃ t s, (some "tok" : Option String) = some t ∧ t ≠ "" ∧
        s ∈ (⟨[], [], [], [⟨"tok", 0, some 10⟩], 0, 0⟩ : Store).adminsessions ∧
        s.token = t ∧ ∀ e, s.expires_at = some e → 5 ≤ e) ∧
    (require_admin ⟨[], [], [], [⟨"tok", 0, some 10⟩], 0, 0⟩ (some "tok") 5 =
        .error .missingToken ↔
      ((some "tok" : Option String) = none ∨ (some "tok" : Option String) = some "")) ∧
    (∀ t, (some "tok" : Option String) = some t → t ≠ "" →
      (require_admin ⟨[], [], [], [⟨"tok", 0, some 10⟩], 0, 0⟩ (some "tok") 5 =
          .error .invalidToken ↔
        ∀ s ∈ (⟨[], [], [], [⟨"tok", 0, some 10⟩], 0, 0⟩ : Store).adminsessions,
          s.token ≠ t)) ∧
    (∀ t, (some "tok" : Option String) = some t → t ≠ "" →
      (require_admin ⟨[], [], [], [⟨"tok", 0, some 10⟩], 0, 0⟩ (some "tok") 5 =
          .error .sessionExpired ↔
        ∃ s e, s ∈ (⟨[], [], [], [⟨"tok", 0, some 10⟩], 0, 0⟩ : Store).adminsessions ∧
          s.token = t ∧ s.expires_at = some e ∧ e < 5)) ∧
    (∀ (α : Type) (op : Store → Except ApiErr α × Store) (e : ApiErr),
      require_admin ⟨[], [], [], [⟨"tok", 0, some 10⟩], 0, 0⟩ (some "tok") 5 = .error e →
        runAdmin ⟨[], [], [], [⟨"tok", 0, some 10⟩], 0, 0⟩ (some "tok") 5 op =
          (.error e, ⟨[], [], [], [⟨"tok", 0, some 10⟩], 0, 0⟩)) :=
  claim_C1_amended_admin_gate ⟨[], [], [], [⟨"tok", 0, some 10⟩], 0, 0⟩
    (some "tok") 5 (by decide) (by decide)

/-! ## Claim C2 -/

/-- C2: In every store state reachable by a sequential run of the category
operations from the empty store, the stored categories have pairwise
distinct slugs; create fails with 400 Conflict (inserting nothing) when a
category with the requested slug already exists, and update fails with 400
Conflict (changing nothing) when the requested new slug belongs to a
different existing category. -/
theorem claim_C2_slug_uniqueness_invariant (ops : List CatOp) :
    ((runCatOps emptyStore ops).categories.map (fun c => c.slug)).Nodup ∧
    (∀ (st : Store) (raw : CategoryRaw) (p : Category),
      validateCategory raw = .ok p →
      (∃ c ∈ st.categories, c.slug = p.slug) →
      create_category st raw = (.error .slugConflict, st)) ∧
    (∀ (st : Store) (id : Nat) (u : CategoryUpdate) (s : String),
      u.slug.toOption = some s →
      (∃ c ∈ st.categories, c.slug = s ∧ c._id ≠ id) →
      update_category st id u = (.error .slugConflict, st)) := by
  refine ⟨(catsOK_run ops).2.2, ?_, ?_⟩
  · rintro st raw p hv ⟨c, hc, hcs⟩
    have hex : st.categories.any (fun c => c.slug == p.slug) = true :=
      List.any_eq_true.mpr ⟨c, hc, by simp [hcs]⟩
    simp only [create_category, hv, hex, if_true]
  · rintro st id u s hs ⟨c, hc, hcs, hcid⟩
    have hne : u.isEmptyData = false := by
      unfold CategoryUpdate.isEmptyData
      simp [hs]
    have hcf : st.categories.any (fun c => c.slug == s && c._id != id) = true :=
      List.any_eq_true.mpr ⟨c, hc, by simp [hcs, hcid]⟩
    simp only [update_category, hne, Bool.false_eq_true, if_false, hs, hcf, if_true]

/-- Witness for C2: a one-create run from the empty store, plus both
conflict rejections on the sample store (which already holds slug
`shoes`). -/
theorem claim_C2_witness :
    ((runCatOps emptyStore
        [CatOp.create ⟨.given "Shoes", .given "shoes", .absent, .absent⟩]).categories.map
        (fun c => c.slug)).Nodup ∧
    create_category sampleStore ⟨.given "X", .given "shoes", .absent, .absent⟩ =
      (.error .slugConflict, sampleStore) ∧
    update_category sampleStore 99 ⟨.absent, .given "shoes", .absent, .absent⟩ =
      (.error .slugConflict, sampleStore) := by
  refine ⟨?_, ?_, ?_⟩
  · exact (claim_C2_slug_uniqueness_invariant
      [CatOp.create ⟨.given "Shoes", .given "shoes", .absent, .absent⟩]).1
  · exact (claim_C2_slug_uniqueness_invariant []).2.1 sampleStore
      ⟨.given "X", .given "shoes", .absent, .absent⟩ ⟨"X", "shoes", none, true⟩
      rfl (by decide)
  · exact (claim_C2_slug_uniqueness_invariant []).2.2 sampleStore 99
      ⟨.absent, .given "shoes", .absent, .absent⟩ "shoes" rfl (by decide)

end ECom
